import Mathlib

/-
Shallow embedding of the Chrome Cache decoding engine of dtformats
(src/dtformats/chrome_cache.py) and verification of its specification.

Machine integers are modelled as `Nat` with explicit `% 2 ^ 32` where the
Python source masks with `0xffffffff`; byte strings are `List Nat` whose
elements are byte values.  Fallible operations return `Option` or carry an
explicit error field.  Observable side effects of the parser (log calls,
emitted records, the raised exception) are captured in explicit result
structures.
-/

namespace ChromeCache

/-- 2 ^ 32, the modulus of the unsigned 32-bit wraparound arithmetic used
throughout `SuperFastHash` (the Python source writes `& 0xffffffff`). -/
def pow32 : Nat := 4294967296

/-- Lowercase hexadecimal rendering of a natural number, as produced by
Python's `{0:x}` format. -/
def natToHex (n : Nat) : String := (Nat.toDigits 16 n).asString

/-- Left pad a string with zeros up to width `w`, as Python's `{0:0Nx}`
minimum-width padding does. -/
def zeroPad (w : Nat) (s : String) : String :=
  if s.length < w then String.mk (List.replicate (w - s.length) '0') ++ s else s

/-- Python `u'{0:06x}'.format n`. -/
def formatHex06 (n : Nat) : String := zeroPad 6 (natToHex n)

/-- Python `u'0x{0:08x}'.format n` without the `0x`. -/
def formatHex08 (n : Nat) : String := zeroPad 8 (natToHex n)

/-! ## CacheAddress (chrome_cache.py lines 78-140) -/

/-- `CacheAddress.FILE_TYPE_SEPARATE`. -/
def FILE_TYPE_SEPARATE : Nat := 0

/-- `CacheAddress._FILE_TYPE_BLOCK_SIZES = (0, 36, 256, 1024, 4096)`,
indexed by the file type. -/
def FILE_TYPE_BLOCK_SIZES : List Nat := [0, 36, 256, 1024, 4096]

/-- The decoded attributes a `CacheAddress` object carries after
`CacheAddress.__init__` ran: fields that the constructor leaves at `None`
are `none`. -/
structure CacheAddressRec where
  value : Nat
  is_initialized : Bool
  file_type : Nat
  filename : Option String
  block_number : Option Nat
  block_size : Option Nat
  block_offset : Option Nat
deriving Repr, DecidableEq

/-- Shallow embedding of `CacheAddress.__init__` (chrome_cache.py lines
109-140): decode a packed 32-bit cache address.  The bit extractions
mirror the source: initialized flag from bit 31, file type from bits
28-30, then either a separate-file name (`f_` + 6-digit hex of the low 28
bits), block-file fields (`data_` + decimal of bits 16-23, block number
from the low 16 bits, block size from bits 24-25 scaled by the per-type
base size, block offset `8192 + block_number * base`), or - for value 0
and for file types outside 0-4 - no derived fields at all. -/
def cacheAddress (cache_address : Nat) : CacheAddressRec :=
  let is_init : Bool := cache_address &&& 0x80000000 ≠ 0
  let file_type := (cache_address &&& 0x70000000) >>> 28
  if cache_address = 0 then
    { value := cache_address, is_initialized := is_init, file_type := file_type,
      filename := none, block_number := none, block_size := none,
      block_offset := none }
  else if file_type = FILE_TYPE_SEPARATE then
    let file_selector := cache_address &&& 0x0fffffff
    { value := cache_address, is_initialized := is_init, file_type := file_type,
      filename := some ("f_" ++ formatHex06 file_selector),
      block_number := none, block_size := none, block_offset := none }
  else if file_type = 1 ∨ file_type = 2 ∨ file_type = 3 ∨ file_type = 4 then
    let file_selector := (cache_address &&& 0x00ff0000) >>> 16
    let file_block_size := FILE_TYPE_BLOCK_SIZES.getD file_type 0
    { value := cache_address, is_initialized := is_init, file_type := file_type,
      filename := some ("data_" ++ toString file_selector),
      block_number := some (cache_address &&& 0x0000ffff),
      block_size := some (((cache_address &&& 0x03000000) >>> 24) * file_block_size),
      block_offset := some (8192 + (cache_address &&& 0x0000ffff) * file_block_size) }
  else
    { value := cache_address, is_initialized := is_init, file_type := file_type,
      filename := none, block_number := none, block_size := none,
      block_offset := none }

/-! ## SuperFastHash (chrome_cache.py lines 16-75) -/

/-- One iteration of the main loop of `SuperFastHash` (lines 33-43): fold a
full 4-byte group `b0 b1 b2 b3` into the running hash. -/
def sfhGroup (hash_value b0 b1 b2 b3 : Nat) : Nat :=
  let h1 := (hash_value + b0 + (b1 <<< 8)) % pow32
  let temp_value := (((b2 + (b3 <<< 8)) <<< 11) % pow32) ^^^ h1
  let h2 := ((h1 <<< 16) % pow32) ^^^ temp_value
  (h2 + (h2 >>> 11)) % pow32

/-- The main loop of `SuperFastHash`: consume the key four bytes at a time
(the source iterates `key_index` over `xrange(0, key_length, 4)` where
`key_length` was rounded down to a multiple of 4) and return the folded
hash together with the 0-3 remaining bytes. -/
def sfhLoop (hash_value : Nat) : List Nat → Nat × List Nat
  | b0 :: b1 :: b2 :: b3 :: rest => sfhLoop (sfhGroup hash_value b0 b1 b2 b3) rest
  | rest => (hash_value, rest)

/-- The remainder handling of `SuperFastHash` (lines 47-65): mix the 1-3
trailing bytes into the hash with the remainder-specific formulas. -/
def sfhTail (hash_value : Nat) : List Nat → Nat
  | [b0, b1, b2] =>
    let h1 := (hash_value + b0 + (b1 <<< 8)) % pow32
    let h2 := h1 ^^^ ((h1 <<< 16) % pow32)
    let h3 := h2 ^^^ ((b2 <<< 18) % pow32)
    (h3 + (h3 >>> 11)) % pow32
  | [b0, b1] =>
    let h1 := (hash_value + b0 + (b1 <<< 8)) % pow32
    let h2 := h1 ^^^ ((h1 <<< 11) % pow32)
    (h2 + (h2 >>> 17)) % pow32
  | [b0] =>
    let h1 := (hash_value + b0) % pow32
    let h2 := h1 ^^^ ((h1 <<< 10) % pow32)
    (h2 + (h2 >>> 1)) % pow32
  | _ => hash_value

/-- The final "avalanching" of `SuperFastHash` (lines 68-73). -/
def sfhAvalanche (hash_value : Nat) : Nat :=
  let h1 := hash_value ^^^ ((hash_value <<< 3) % pow32)
  let h2 := (h1 + (h1 >>> 5)) % pow32
  let h3 := h2 ^^^ ((h2 <<< 4) % pow32)
  let h4 := (h3 + (h3 >>> 17)) % pow32
  let h5 := h4 ^^^ ((h4 <<< 25) % pow32)
  (h5 + (h5 >>> 6)) % pow32

/-- Shallow embedding of `SuperFastHash` (chrome_cache.py lines 16-75):
empty keys hash to 0; otherwise the hash is initialized to the key length
(masked to 32 bits), folded over the full 4-byte groups, mixed with the
trailing bytes and avalanched. -/
def SuperFastHash (key : List Nat) : Nat :=
  if key = [] then 0
  else
    let hash0 := key.length % pow32
    let p := sfhLoop hash0 key
    sfhAvalanche (sfhTail p.1 p.2)

/-! ### Specification-side rendition of SuperFastHash (spec section 4.2)

The spec describes the algorithm in terms of 4-byte little-endian groups,
remainder-selected tail formulas and a six-step avalanche with shift
amounts 3, 5, 4, 17, 25, 6.  The definitions below follow that wording:
groups become 32-bit little-endian words that are folded left-to-right,
and the avalanche is a fold over the list of (xor-shift, add-shift)
pairs.  They are compared with the source embedding above. -/

/-- The 32-bit little-endian word of a 4-byte group. -/
def leWord (b0 b1 b2 b3 : Nat) : Nat := b0 + b1 * 256 + b2 * 65536 + b3 * 16777216

/-- The full 4-byte groups of a byte string, as little-endian words; a
trailing group of fewer than 4 bytes is not included. -/
def chunkWords : List Nat → List Nat
  | b0 :: b1 :: b2 :: b3 :: rest => leWord b0 b1 b2 b3 :: chunkWords rest
  | _ => []

/-- The trailing bytes of a byte string after all full 4-byte groups. -/
def tailBytes : List Nat → List Nat
  | _ :: _ :: _ :: _ :: rest => tailBytes rest
  | rest => rest

/-- Spec wording of the group fold: add the low 16 bits of the word, mix
the high 16 bits shifted left by 11 through the hash together with the
hash shifted left by 16, then apply `hash += hash >> 11`, all mod 2^32. -/
def groupSpec (h w : Nat) : Nat :=
  let h1 := (h + w % 65536) % pow32
  let t := (((w / 65536) <<< 11) % pow32) ^^^ h1
  let h2 := ((h1 <<< 16) % pow32) ^^^ t
  (h2 + (h2 >>> 11)) % pow32

/-- Spec wording of the tail mix, selected by the remainder count: 3
trailing bytes use shifts 16, 18, 11; 2 trailing bytes use 11, 17; a
single trailing byte uses 10, 1. -/
def tailSpec (h : Nat) : List Nat → Nat
  | [b0, b1, b2] =>
    let h1 := (h + (b0 + b1 * 256)) % pow32
    let h2 := h1 ^^^ ((h1 <<< 16) % pow32)
    let h3 := h2 ^^^ ((b2 <<< 18) % pow32)
    (h3 + (h3 >>> 11)) % pow32
  | [b0, b1] =>
    let h1 := (h + (b0 + b1 * 256)) % pow32
    let h2 := h1 ^^^ ((h1 <<< 11) % pow32)
    (h2 + (h2 >>> 17)) % pow32
  | [b0] =>
    let h1 := (h + b0) % pow32
    let h2 := h1 ^^^ ((h1 <<< 10) % pow32)
    (h2 + (h2 >>> 1)) % pow32
  | _ => h

/-- One avalanche step as the spec words it: an XOR-shift by the first
amount followed by an add-shift by the second, mod 2^32. -/
def avalanchePairSpec (h : Nat) (p : Nat × Nat) : Nat :=
  let h1 := h ^^^ ((h <<< p.1) % pow32)
  (h1 + (h1 >>> p.2)) % pow32

/-- The spec's six-step avalanche: shift amounts 3, 5, 4, 17, 25, 6. -/
def avalancheSpec (h : Nat) : Nat :=
  [(3, 5), (4, 17), (25, 6)].foldl avalanchePairSpec h

/-- `SuperFastHash` as the spec words it: 0 on the empty key, otherwise
initialize with the key length mod 2^32, fold the full little-endian
groups, mix the trailing bytes and avalanche. -/
def superFastHashSpec (key : List Nat) : Nat :=
  if key = [] then 0
  else
    avalancheSpec
      (tailSpec ((chunkWords key).foldl groupSpec (key.length % pow32))
        (tailBytes key))

/-! ## Cache entries and the key decoding of `DataBlockFile.ReadCacheEntry`
(chrome_cache.py lines 512-552) -/

/-- The fields of a `chrome_cache_entry` record that the traversal uses.
`key` is the raw 160-byte inline key buffer. -/
structure CacheEntryData where
  hash : Nat
  next_address : Nat
  rankings_node_address : Nat
  creation_time : Nat
  key : List Nat
deriving Repr, DecidableEq

/-- `byte_string.partition(b'\x00')` keeps the bytes before the first NUL
byte (the whole buffer when no NUL occurs). -/
def truncateAtNul (key : List Nat) : List Nat := key.takeWhile (· ≠ 0)

/-- Python's strict `bytes.decode('ascii')`: succeeds exactly when every
byte is below 128, in which case each byte maps to the code point of the
same value. -/
def asciiStrict (bs : List Nat) : Option (List Nat) :=
  if bs.all (· < 128) then some bs else none

/-- Python's `bytes.decode('ascii', errors='replace')`: every byte that is
not valid ASCII is replaced, at its position, by the replacement character
U+FFFD. -/
def asciiReplace (bs : List Nat) : List Nat :=
  bs.map fun b => if b < 128 then b else 0xfffd

/-- The key handling of `DataBlockFile.ReadCacheEntry` (lines 525-537):
truncate the raw key buffer at the first NUL, try a strict ASCII decode
and, when that fails, log a warning (returned as the Bool) and decode
again with replacement.  The result is the decoded key as a list of code
points together with whether the replacement warning was logged. -/
def readCacheEntryKey (key : List Nat) : List Nat × Bool :=
  let truncated := truncateAtNul key
  match asciiStrict truncated with
  | some decoded => (decoded, false)
  | none => (asciiReplace truncated, true)

/-! ## File header validation (chrome_cache.py lines 479-510 and 798-827) -/

/-- The header fields that `_ReadFileHeader` validates. -/
structure FileHeader where
  signature : Nat
  minor_version : Nat
  major_version : Nat
deriving Repr, DecidableEq

/-- Outcome of `_ReadFileHeader` once the header bytes were read: the
signature `ParseError`, the version `ParseError`, or success carrying the
accepted format version string. -/
inductive HeaderResult
  | invalidSignature (signature : Nat)
  | unsupportedVersion (format_version : String)
  | ok (format_version : String)
deriving Repr, DecidableEq

/-- `DataBlockFile.SIGNATURE` (line 331). -/
def DATA_BLOCK_SIGNATURE : Nat := 0xc104cac3

/-- `IndexFile.SIGNATURE` (line 698). -/
def INDEX_SIGNATURE : Nat := 0xc103cac3

/-- `u'{0:d}.{1:d}'.format(major_version, minor_version)`. -/
def formatVersion (major minor : Nat) : String :=
  toString major ++ "." ++ toString minor

/-- The validation performed by `DataBlockFile._ReadFileHeader` (lines
496-507) after the header was read: signature first, then the formatted
version string against the accepted set. -/
def dataBlockReadFileHeader (h : FileHeader) : HeaderResult :=
  if h.signature ≠ DATA_BLOCK_SIGNATURE then .invalidSignature h.signature
  else
    let fv := formatVersion h.major_version h.minor_version
    if fv = "2.0" ∨ fv = "2.1" then .ok fv else .unsupportedVersion fv

/-- The validation performed by `IndexFile._ReadFileHeader` (lines
815-825): identical pattern with the index file's own magic. -/
def indexReadFileHeader (h : FileHeader) : HeaderResult :=
  if h.signature ≠ INDEX_SIGNATURE then .invalidSignature h.signature
  else
    let fv := formatVersion h.major_version h.minor_version
    if fv = "2.0" ∨ fv = "2.1" then .ok fv else .unsupportedVersion fv

/-! ## IndexFile._ReadIndexTable (chrome_cache.py lines 846-877) -/

/-- The loop of `_ReadIndexTable` with the running slot counter
`cache_address_index`: consume 4-byte little-endian words while a full
word can be read; zero words advance the slot counter without producing
an entry, nonzero words produce a decoded `CacheAddress` at the current
slot; fewer than 4 remaining bytes end the table. -/
def readIndexTableAux (cache_address_index : Nat) :
    List Nat → List (Nat × CacheAddressRec)
  | b0 :: b1 :: b2 :: b3 :: rest =>
    let value := leWord b0 b1 b2 b3
    if value ≠ 0 then
      (cache_address_index, cacheAddress value) ::
        readIndexTableAux (cache_address_index + 1) rest
    else readIndexTableAux (cache_address_index + 1) rest
  | _ => []

/-- Shallow embedding of `IndexFile._ReadIndexTable` applied to the bytes
that remain in the stream after the header and the LRU data. -/
def ReadIndexTable (data : List Nat) : List (Nat × CacheAddressRec) :=
  readIndexTableAux 0 data

/-- Specification-side characterization of the index table: the enumerated
full little-endian words of the stream, keeping only the nonzero ones,
each decoded as a cache address at its slot index. -/
def indexTableSpec (data : List Nat) : List (Nat × CacheAddressRec) :=
  ((chunkWords data).enum.filter fun p => p.2 ≠ 0).map
    fun p => (p.1, cacheAddress p.2)

/-! ## ChromeCacheParser.ParseDirectory (chrome_cache.py lines 926-1013)

The filesystem is modelled explicitly: a `Directory` holds the nonzero
cache-address values of the parsed index table (in slot order, the
`index_file.index_table.values()` the two loops iterate) and the data
block files present on disk, each an association list from block offset
to the cache entry record stored there (`_ReadStructure` failing to read
a complete entry at an offset is modelled by a missing offset).  Files
listed in `Directory.files` are assumed to open cleanly as data block
files; header validation itself is modelled by `dataBlockReadFileHeader`
above.  Log calls, printed records and the exception that leaves
`ParseDirectory` are the observable outcomes. -/

/-- Severity of a `logging` call made by the parser. -/
inductive LogSeverity
  | warning
  | error
deriving Repr, DecidableEq

/-- One log line: severity and message text. -/
structure LogMsg where
  severity : LogSeverity
  text : String
deriving Repr, DecidableEq

/-- The exceptions that can leave `ParseDirectory`: `errors.ParseError`
with its message, the `TypeError` of `os.path.join(path, None)` when an
index-table address has no filename, and the Python 2 `UnicodeEncodeError`
of re-decoding an already replacement-decoded key at line 983 (the
`except UnicodeDecodeError` there does not catch it). -/
inductive RunError
  | parseError (msg : String)
  | typeError
  | unicodeEncodeError
deriving Repr, DecidableEq

/-- Contents of one data block file: cache entries by block offset. -/
abbrev DataFileModel := List (Nat × CacheEntryData)

/-- A Chrome Cache directory as `ParseDirectory` sees it. -/
structure Directory where
  path : String
  index_values : List Nat
  files : List (String × DataFileModel)
deriving Repr, DecidableEq

/-- `data_block_files.get(cache_address.filename, None)`: a `None`
filename is never a key of the dict. -/
def lookupOpened (opened : List (String × DataFileModel)) :
    Option String → Option DataFileModel
  | none => none
  | some name => (opened.find? fun p => p.1 == name).map Prod.snd

/-- `_ReadStructure` of the cache entry at a block offset: `none` when no
complete entry can be read there (a `ParseError` in the source). -/
def lookupEntry (f : DataFileModel) (block_offset : Nat) : Option CacheEntryData :=
  (f.find? fun p => p.1 == block_offset).map Prod.snd

/-- Message of `logging.error` at line 950. -/
def missingFileMsg (path name : String) : String :=
  "Missing data block file: " ++ path ++ "/" ++ name

/-- Message of `logging.error` at line 967. -/
def maxChainMsg : String := "Maximum allowed cache address chain length reached."

/-- Message of `logging.warning` at line 973. -/
def missingFilenameMsg (value : Nat) : String :=
  "Cache address: 0x" ++ formatHex08 value ++ " missing filename."

/-- Message of `logging.warning` at line 531 in `ReadCacheEntry`. -/
def keyDecodeMsg (block_offset : Nat) : String :=
  "Unable to decode cache entry key at block offset: 0x" ++
    formatHex08 block_offset ++
    ". Characters that cannot be decoded will be replaced with \"?\" or \"\\ufffd\"."

/-- Result of the opening pass over the index table (lines 943-959). -/
structure OpenPassResult where
  opened : List (String × DataFileModel)
  have_all : Bool
  logs : List LogMsg
  err : Option RunError
deriving Repr, DecidableEq

/-- The opening pass of `ParseDirectory` (lines 943-959): for every cache
address of the index table, open its data block file unless it was opened
before; a referenced file that does not exist is logged as an error and
clears `have_all_data_block_files`; an address whose decoded filename is
`None` makes `os.path.join` raise a `TypeError`, aborting the pass. -/
def openPassAux (d : Directory) (opened : List (String × DataFileModel))
    (have_all : Bool) (logs : List LogMsg) : List Nat → OpenPassResult
  | [] => ⟨opened, have_all, logs, none⟩
  | v :: rest =>
    match (cacheAddress v).filename with
    | none => ⟨opened, have_all, logs, some .typeError⟩
    | some name =>
      if (opened.find? fun p => p.1 == name).isSome then
        openPassAux d opened have_all logs rest
      else
        match d.files.find? fun p => p.1 == name with
        | none =>
          openPassAux d opened false
            (logs ++ [⟨.error, missingFileMsg d.path name⟩]) rest
        | some pf => openPassAux d (opened ++ [(name, pf.2)]) have_all logs rest

/-- Observable outcome of a chain walk or of a whole `ParseDirectory`
call: the records printed at line 1002 as (creation time, decoded key)
pairs, the log lines, and the exception that escaped, if any. -/
structure RunResult where
  records : List (Nat × List Nat)
  logs : List LogMsg
  err : Option RunError
deriving Repr, DecidableEq

/-- The chain-following loop of `ParseDirectory` (lines 963-1005) for one
starting cache address.  The fuel argument stands for
`64 - cache_address_chain_length`: the source checks
`cache_address_chain_length >= 64` at the top of each iteration after
testing the while condition `cache_address.value != 0x00000000`, and
increments the counter after emitting each entry.  A missing filename in
the opened files dict logs a warning and abandons the chain; reaching the
cap logs an error and abandons the chain.  Reading the entry can raise
(modelled via `lookupEntry`/`block_offset`), and an entry key that needed
replacement decoding makes the re-decode at line 983 raise an uncaught
`UnicodeEncodeError` under Python 2. -/
def followChainAux (opened : List (String × DataFileModel)) :
    Nat → CacheAddressRec → RunResult
  | 0, a =>
    if a.value = 0 then ⟨[], [], none⟩
    else ⟨[], [⟨.error, maxChainMsg⟩], none⟩
  | fuel + 1, a =>
    if a.value = 0 then ⟨[], [], none⟩
    else
      match lookupOpened opened a.filename with
      | none => ⟨[], [⟨.warning, missingFilenameMsg a.value⟩], none⟩
      | some f =>
        match a.block_offset with
        | none => ⟨[], [], some .typeError⟩
        | some off =>
          match lookupEntry f off with
          | none =>
            ⟨[], [], some (.parseError "Unable to read data block cache entry")⟩
          | some e =>
            if (readCacheEntryKey e.key).1.all (· < 128) then
              ⟨(e.creation_time, (readCacheEntryKey e.key).1) ::
                  (followChainAux opened fuel (cacheAddress e.next_address)).records,
                (if (readCacheEntryKey e.key).2 then [⟨.warning, keyDecodeMsg off⟩]
                  else []) ++
                  (followChainAux opened fuel (cacheAddress e.next_address)).logs,
                (followChainAux opened fuel (cacheAddress e.next_address)).err⟩
            else
              ⟨[], if (readCacheEntryKey e.key).2 then [⟨.warning, keyDecodeMsg off⟩]
                else [], some .unicodeEncodeError⟩

theorem and_shiftRight (x y n : Nat) : (x &&& y) >>> n = (x >>> n) &&& (y >>> n) := by
  apply Nat.eq_of_testBit_eq
  intro i
  simp [Nat.testBit_shiftRight, Nat.testBit_and, Nat.add_comm]

theorem and_high_mask (v : Nat) : (v &&& 0x70000000) >>> 28 = v / 2 ^ 28 % 8 := by
  rw [and_shiftRight]
  have h2 : (0x70000000 : Nat) >>> 28 = 2 ^ 3 - 1 := by decide
  rw [h2, Nat.and_pow_two_sub_one_eq_mod, Nat.shiftRight_eq_div_pow]

theorem and_selector_mask (v : Nat) : (v &&& 0x00ff0000) >>> 16 = v / 65536 % 256 := by
  rw [and_shiftRight]
  have h2 : (0x00ff0000 : Nat) >>> 16 = 2 ^ 8 - 1 := by decide
  rw [h2, Nat.and_pow_two_sub_one_eq_mod, Nat.shiftRight_eq_div_pow]

theorem and_block_number_mask (v : Nat) : v &&& 0x0000ffff = v % 65536 := by
  have := Nat.and_pow_two_sub_one_eq_mod v 16
  norm_num at this
  exact this

theorem and_block_size_mask (v : Nat) : (v &&& 0x03000000) >>> 24 = v / 16777216 % 4 := by
  rw [and_shiftRight]
  have h2 : (0x03000000 : Nat) >>> 24 = 2 ^ 2 - 1 := by decide
  rw [h2, Nat.and_pow_two_sub_one_eq_mod, Nat.shiftRight_eq_div_pow]

theorem cacheAddress_value (v : Nat) : (cacheAddress v).value = v := by
  simp only [cacheAddress]
  split_ifs <;> rfl

theorem cacheAddress_file_type (v : Nat) :
    (cacheAddress v).file_type = v / 2 ^ 28 % 8 := by
  rw [← and_high_mask]
  simp only [cacheAddress]
  split_ifs <;> rfl

/-- The base unit sizes of the four block kinds as the spec lists them:
Rankings 36, Block256 256, Block1024 1024, Block4096 4096. -/
def specBaseUnit (kind : Nat) : Nat :=
  if kind = 1 then 36 else if kind = 2 then 256 else if kind = 3 then 1024 else 4096

/-- C4: `cacheAddress` is a total function (it is a Lean function, so
construction succeeds on every input and never raises), it records the
input value unchanged, and for the unknown kind values 5, 6 and 7 in bits
28-30 no filename, block number, block size or block offset is derived. -/
theorem cacheAddress_total_unknown_kinds (v : Nat) :
    (cacheAddress v).value = v ∧
    ((cacheAddress v).file_type = 5 ∨ (cacheAddress v).file_type = 6 ∨
        (cacheAddress v).file_type = 7 →
      (cacheAddress v).filename = none ∧ (cacheAddress v).block_number = none ∧
        (cacheAddress v).block_size = none ∧ (cacheAddress v).block_offset = none) := by
  refine ⟨cacheAddress_value v, fun h => ?_⟩
  rw [cacheAddress_file_type, ← and_high_mask] at h
  simp only [cacheAddress]
  split_ifs with h0 h1 h2
  · exact ⟨rfl, rfl, rfl, rfl⟩
  · simp only [FILE_TYPE_SEPARATE] at h1
    omega
  · omega
  · exact ⟨rfl, rfl, rfl, rfl⟩

/-- Witness for C4 at the concrete unknown-kind value 0x50000001. -/
theorem cacheAddress_total_unknown_kinds_witness :
    (cacheAddress 0x50000001).value = 0x50000001 ∧
      (cacheAddress 0x50000001).filename = none ∧
      (cacheAddress 0x50000001).block_number = none ∧
      (cacheAddress 0x50000001).block_size = none ∧
      (cacheAddress 0x50000001).block_offset = none :=
  ⟨(cacheAddress_total_unknown_kinds 0x50000001).1,
    (cacheAddress_total_unknown_kinds 0x50000001).2 (by decide)⟩

/-- C5: for every value whose kind bits select a block kind (1-4), the
decoded address carries filename `data_` + decimal of bits 16-23, block
number = the low 16 bits, block size = bits 24-25 times the kind's base
unit, and block offset = 8192 + block number times the base unit. -/
theorem cacheAddress_block_kind_fields (v : Nat)
    (h : 1 ≤ (cacheAddress v).file_type ∧ (cacheAddress v).file_type ≤ 4) :
    (cacheAddress v).filename = some ("data_" ++ toString (v / 65536 % 256)) ∧
    (cacheAddress v).block_number = some (v % 65536) ∧
    (cacheAddress v).block_size =
      some (v / 16777216 % 4 * specBaseUnit ((cacheAddress v).file_type)) ∧
    (cacheAddress v).block_offset =
      some (8192 + v % 65536 * specBaseUnit ((cacheAddress v).file_type)) := by
  rw [cacheAddress_file_type] at h ⊢
  simp only [cacheAddress]
  split_ifs with h0 h1 h2
  · subst h0
    simp at h
  · rw [and_high_mask] at h1
    simp only [FILE_TYPE_SEPARATE] at h1
    omega
  · rcases h2 with h2 | h2 | h2 | h2 <;>
      rw [and_high_mask] at h2 <;>
      simp only [and_high_mask, h2, and_selector_mask, and_block_number_mask,
        and_block_size_mask, FILE_TYPE_BLOCK_SIZES, specBaseUnit] <;>
      norm_num [List.getD]
  · rw [and_high_mask] at h2
    omega

/-- Witness for C5 at the Block256 address 0x20020005 (selector 2, block
number 5): filename `data_2` and block offset 9472. -/
theorem cacheAddress_block_kind_fields_witness :
    (1 ≤ (cacheAddress 0x20020005).file_type ∧
        (cacheAddress 0x20020005).file_type ≤ 4) ∧
      (cacheAddress 0x20020005).filename = some "data_2" ∧
      (cacheAddress 0x20020005).block_offset = some 9472 :=
  ⟨by decide,
    (cacheAddress_block_kind_fields 0x20020005 (by decide)).1,
    (cacheAddress_block_kind_fields 0x20020005 (by decide)).2.2.2⟩

/-- C6: decoding is deterministic - equal 32-bit values decode to equal
records - and decoding 0x00000000 yields the uninitialized sentinel with
no derived fields. -/
theorem cacheAddress_deterministic_zero_sentinel (v w : Nat) (h : v = w) :
    cacheAddress v = cacheAddress w ∧
    (cacheAddress 0).is_initialized = false ∧ (cacheAddress 0).filename = none ∧
    (cacheAddress 0).block_number = none ∧ (cacheAddress 0).block_size = none ∧
    (cacheAddress 0).block_offset = none :=
  ⟨by rw [h], by decide, by decide, by decide, by decide, by decide⟩

/-- Witness for C6 at the concrete value 5. -/
theorem cacheAddress_deterministic_zero_sentinel_witness :
    cacheAddress 5 = cacheAddress 5 ∧ (cacheAddress 0).is_initialized = false :=
  ⟨(cacheAddress_deterministic_zero_sentinel 5 5 rfl).1,
    (cacheAddress_deterministic_zero_sentinel 5 5 rfl).2.1⟩

/-- C9 counterexample: a data block header whose signature is wrong (0)
and whose version 3.0 is also outside the accepted set fails with the
signature error, not with the version error - so "fails with a version
error exactly when the version is neither 2.0 nor 2.1" is false as
stated: the version check only runs once the signature matched. -/
theorem readFileHeader_signature_precedes_version :
    dataBlockReadFileHeader ⟨0, 0, 3⟩ = .invalidSignature 0 ∧
    formatVersion 3 0 ≠ "2.0" ∧ formatVersion 3 0 ≠ "2.1" ∧
    dataBlockReadFileHeader ⟨0, 0, 3⟩ ≠
      .unsupportedVersion (formatVersion 3 0) := by
  refine ⟨rfl, by decide, by decide, by decide⟩

/-- C9 (amended): for both readers, opening fails with the signature error
exactly when the header's signature differs from that reader's magic;
it fails with the version error exactly when the signature matches and
the formatted major.minor version is neither 2.0 nor 2.1; and it succeeds
exactly when the signature matches and the version is accepted. -/
theorem readFileHeader_validation (h : FileHeader) :
    (dataBlockReadFileHeader h = .invalidSignature h.signature ↔
      h.signature ≠ DATA_BLOCK_SIGNATURE) ∧
    (dataBlockReadFileHeader h =
        .unsupportedVersion (formatVersion h.major_version h.minor_version) ↔
      h.signature = DATA_BLOCK_SIGNATURE ∧
        formatVersion h.major_version h.minor_version ≠ "2.0" ∧
        formatVersion h.major_version h.minor_version ≠ "2.1") ∧
    (dataBlockReadFileHeader h =
        .ok (formatVersion h.major_version h.minor_version) ↔
      h.signature = DATA_BLOCK_SIGNATURE ∧
        (formatVersion h.major_version h.minor_version = "2.0" ∨
          formatVersion h.major_version h.minor_version = "2.1")) ∧
    (indexReadFileHeader h = .invalidSignature h.signature ↔
      h.signature ≠ INDEX_SIGNATURE) ∧
    (indexReadFileHeader h =
        .unsupportedVersion (formatVersion h.major_version h.minor_version) ↔
      h.signature = INDEX_SIGNATURE ∧
        formatVersion h.major_version h.minor_version ≠ "2.0" ∧
        formatVersion h.major_version h.minor_version ≠ "2.1") ∧
    (indexReadFileHeader h =
        .ok (formatVersion h.major_version h.minor_version) ↔
      h.signature = INDEX_SIGNATURE ∧
        (formatVersion h.major_version h.minor_version = "2.0" ∨
          formatVersion h.major_version h.minor_version = "2.1")) := by
  simp only [dataBlockReadFileHeader, indexReadFileHeader]
  split_ifs <;> simp_all <;> tauto

/-! ## SuperFastHash refinement lemmas -/

theorem sfhGroup_eq_groupSpec (h b0 b1 b2 b3 : Nat) (hb0 : b0 < 256) (hb1 : b1 < 256) :
    sfhGroup h b0 b1 b2 b3 = groupSpec h (leWord b0 b1 b2 b3) := by
  have e1 : leWord b0 b1 b2 b3 % 65536 = b0 + b1 * 256 := by
    unfold leWord
    omega
  have e2 : leWord b0 b1 b2 b3 / 65536 = b2 + b3 * 256 := by
    unfold leWord
    omega
  simp only [sfhGroup, groupSpec, e1, e2, Nat.shiftLeft_eq]
  norm_num [Nat.add_assoc]

theorem sfhLoop_eq : ∀ (key : List Nat) (h : Nat), (∀ b ∈ key, b < 256) →
    sfhLoop h key = ((chunkWords key).foldl groupSpec h, tailBytes key)
  | b0 :: b1 :: b2 :: b3 :: rest, h, hb => by
    rw [sfhLoop, chunkWords, tailBytes, List.foldl_cons,
      sfhLoop_eq rest _ (fun b hm => hb b (by simp [hm])),
      sfhGroup_eq_groupSpec h b0 b1 b2 b3 (hb b0 (by simp)) (hb b1 (by simp))]
  | [], _, _ => rfl
  | [_], _, _ => rfl
  | [_, _], _, _ => rfl
  | [_, _, _], _, _ => rfl

theorem sfhTail_eq_tailSpec (h : Nat) (rem : List Nat) :
    sfhTail h rem = tailSpec h rem := by
  match rem with
  | [] => rfl
  | [b0] => rfl
  | [b0, b1] =>
    simp only [sfhTail, tailSpec, Nat.shiftLeft_eq]
    norm_num [Nat.add_assoc]
  | [b0, b1, b2] =>
    simp only [sfhTail, tailSpec, Nat.shiftLeft_eq]
    norm_num [Nat.add_assoc]
  | _ :: _ :: _ :: _ :: _ => rfl

theorem sfhAvalanche_eq_avalancheSpec (h : Nat) : sfhAvalanche h = avalancheSpec h := rfl

/-- C3: `SuperFastHash` returns 0 on the empty key, and on every byte
string it agrees with the spec's rendition of the algorithm
(`superFastHashSpec`): length-initialized hash, little-endian 4-byte
group folds, the remainder-specific tail formulas with shifts 16/18/11,
11/17 and 10/1, and the six-step avalanche with shifts 3, 5, 4, 17, 25,
6, all in wraparound 32-bit arithmetic. -/
theorem superFastHash_correct (key : List Nat) :
    SuperFastHash [] = 0 ∧
    ((∀ b ∈ key, b < 256) → SuperFastHash key = superFastHashSpec key) := by
  refine ⟨rfl, fun hb => ?_⟩
  unfold SuperFastHash superFastHashSpec
  split_ifs with h0
  · rfl
  · show sfhAvalanche (sfhTail (sfhLoop (key.length % pow32) key).1
        (sfhLoop (key.length % pow32) key).2) = _
    rw [sfhLoop_eq key _ hb, sfhTail_eq_tailSpec, sfhAvalanche_eq_avalancheSpec]

/-- Witness for C3 on the concrete 5-byte key "hello". -/
theorem superFastHash_correct_witness :
    (∀ b ∈ ([104, 101, 108, 108, 111] : List Nat), b < 256) ∧
    SuperFastHash [104, 101, 108, 108, 111] =
      superFastHashSpec [104, 101, 108, 108, 111] :=
  ⟨by decide, (superFastHash_correct [104, 101, 108, 108, 111]).2 (by decide)⟩

/-! ## Index table lemmas -/

theorem readIndexTableAux_eq : ∀ (data : List Nat) (idx : Nat),
    readIndexTableAux idx data =
      (((chunkWords data).enumFrom idx).filter fun p => p.2 ≠ 0).map
        fun p => (p.1, cacheAddress p.2)
  | b0 :: b1 :: b2 :: b3 :: rest, idx => by
    by_cases hv : leWord b0 b1 b2 b3 = 0 <;>
      simp [readIndexTableAux, chunkWords, List.enumFrom, hv,
        readIndexTableAux_eq rest (idx + 1), List.filter_cons]
  | [], _ => rfl
  | [_], _ => rfl
  | [_, _], _ => rfl
  | [_, _, _], _ => rfl

theorem readIndexTableAux_short (idx : Nat) (data : List Nat) (h : data.length < 4) :
    readIndexTableAux idx data = [] := by
  match data with
  | [] => rfl
  | [_] => rfl
  | [_, _] => rfl
  | [_, _, _] => rfl
  | _ :: _ :: _ :: _ :: _ =>
    simp at h
    omega

theorem readIndexTableAux_drops_trailing : ∀ (l r : List Nat) (idx : Nat),
    4 ∣ l.length → r.length < 4 →
    readIndexTableAux idx (l ++ r) = readIndexTableAux idx l
  | b0 :: b1 :: b2 :: b3 :: rest, r, idx, h4, hr => by
    have h4' : 4 ∣ rest.length := by
      simp at h4
      omega
    simp only [List.cons_append, readIndexTableAux, List.append_eq,
      readIndexTableAux_drops_trailing rest r (idx + 1) h4' hr]
  | [], r, idx, _, hr => by
    simpa using readIndexTableAux_short idx r hr
  | [_], _, _, h4, _ => by
    simp at h4
  | [_, _], _, _, h4, _ => by
    simp at h4
    omega
  | [_, _, _], _, _, h4, _ => by
    simp at h4
    omega

/-- C7: the index table read consumes consecutive 4-byte little-endian
words: the table equals the enumerated nonzero full words of the stream,
each decoded as a cache address at its slot index (so zero words produce
no entry and nonzero words produce one), and a trailing partial word of
fewer than 4 bytes is ignored - the read ends there without an error. -/
theorem readIndexTable_correct :
    (∀ data : List Nat, ReadIndexTable data = indexTableSpec data) ∧
    (∀ l r : List Nat, 4 ∣ l.length → r.length < 4 →
      ReadIndexTable (l ++ r) = ReadIndexTable l) := by
  constructor
  · intro data
    unfold ReadIndexTable indexTableSpec
    rw [readIndexTableAux_eq data 0, List.enum]
  · intro l r h4 hr
    unfold ReadIndexTable
    exact readIndexTableAux_drops_trailing l r 0 h4 hr

/-- Witness for C7 on a concrete stream of two full words (one zero, one
nonzero) and a 2-byte trailing partial word. -/
theorem readIndexTable_correct_witness :
    ReadIndexTable [0, 0, 0, 0, 5, 0, 0, 0x20] =
      indexTableSpec [0, 0, 0, 0, 5, 0, 0, 0x20] ∧
    (4 ∣ ([0, 0, 0, 0, 5, 0, 0, 0x20] : List Nat).length ∧
      ([1, 2] : List Nat).length < 4) ∧
    ReadIndexTable ([0, 0, 0, 0, 5, 0, 0, 0x20] ++ [1, 2]) =
      ReadIndexTable [0, 0, 0, 0, 5, 0, 0, 0x20] :=
  ⟨readIndexTable_correct.1 _, ⟨by decide, by decide⟩,
    readIndexTable_correct.2 _ _ (by decide) (by decide)⟩

/-! ## Cache entry key decoding lemmas -/

theorem getD_map_lt (l : List Nat) (f : Nat → Nat) (i : Nat) (h : i < l.length) :
    (l.map f).getD i 0 = f (l.getD i 0) := by
  rw [List.getD_eq_getElem?_getD, List.getD_eq_getElem?_getD, List.getElem?_map,
    List.getElem?_eq_getElem h]
  simp

theorem getD_lt_of_all (l : List Nat) (i : Nat) (h : i < l.length)
    (hall : l.all (· < 128)) : l.getD i 0 < 128 := by
  rw [List.getD_eq_getElem?_getD, List.getElem?_eq_getElem h]
  simp only [Option.getD_some]
  exact of_decide_eq_true ((List.all_eq_true.mp hall) _ (List.getElem_mem h))

/-- C8: the cache entry key decode never fails: the raw buffer is
truncated at the first NUL byte, the decode is a total function of the
buffer, ASCII bytes are kept unchanged at their positions, and every
non-ASCII byte is replaced at its position by the placeholder U+FFFD,
with the replacement observable through the logged-warning flag. -/
theorem readCacheEntryKey_eq (key : List Nat) :
    readCacheEntryKey key =
      if (truncateAtNul key).all (· < 128) then (truncateAtNul key, false)
      else ((truncateAtNul key).map (fun b => if b < 128 then b else 0xfffd), true) := by
  unfold readCacheEntryKey asciiStrict asciiReplace
  split_ifs with h <;> simp [h]

theorem readCacheEntryKey_never_fails (key : List Nat) (i : Nat)
    (hi : i < (truncateAtNul key).length) :
    (readCacheEntryKey key).1.length = (truncateAtNul key).length ∧
    ((truncateAtNul key).getD i 0 < 128 →
      (readCacheEntryKey key).1.getD i 0 = (truncateAtNul key).getD i 0) ∧
    (128 ≤ (truncateAtNul key).getD i 0 →
      (readCacheEntryKey key).1.getD i 0 = 0xfffd ∧
        (readCacheEntryKey key).2 = true) := by
  rw [readCacheEntryKey_eq]
  split_ifs with hall
  · refine ⟨rfl, fun _ => rfl, fun hge => absurd hge ?_⟩
    have := getD_lt_of_all _ i hi hall
    omega
  · refine ⟨List.length_map _ _, fun hlt => ?_, fun hge => ?_⟩
    · rw [getD_map_lt _ _ i hi]
      exact if_pos hlt
    · rw [getD_map_lt _ _ i hi]
      exact ⟨if_neg (by omega), rfl⟩

/-- Witness for C8 on a 160-byte buffer whose byte at position 1 is the
non-ASCII value 200, before the NUL at position 3. -/
theorem readCacheEntryKey_never_fails_witness :
    (1 < (truncateAtNul ([104, 200, 105, 0] ++ List.replicate 156 0)).length ∧
      128 ≤ (truncateAtNul ([104, 200, 105, 0] ++ List.replicate 156 0)).getD 1 0) ∧
    (readCacheEntryKey ([104, 200, 105, 0] ++ List.replicate 156 0)).1.getD 1 0 =
      0xfffd ∧
    (readCacheEntryKey ([104, 200, 105, 0] ++ List.replicate 156 0)).2 = true :=
  ⟨⟨by decide, by decide⟩,
    (readCacheEntryKey_never_fails ([104, 200, 105, 0] ++ List.replicate 156 0) 1
      (by decide)).2.2 (by decide)⟩

/-! ## Chain traversal lemmas -/

theorem readCacheEntryKey_snd_false {key : List Nat}
    (h : (readCacheEntryKey key).2 = false) :
    (readCacheEntryKey key).1.all (· < 128) = true := by
  rw [readCacheEntryKey_eq] at h ⊢
  split_ifs at h ⊢ with hall
  exact hall

theorem followChainAux_records_le (opened : List (String × DataFileModel)) :
    ∀ (fuel : Nat) (a : CacheAddressRec),
      (followChainAux opened fuel a).records.length ≤ fuel
  | 0, a => by
    rw [followChainAux]
    split_ifs <;> simp
  | fuel + 1, a => by
    rw [followChainAux]
    split_ifs with h0
    · simp
    · cases hl : lookupOpened opened a.filename with
      | none => simp [hl]
      | some f =>
        cases ho : a.block_offset with
        | none => simp [hl, ho]
        | some off =>
          cases he : lookupEntry f off with
          | none => simp [hl, ho, he]
          | some e =>
            simp only [hl, ho, he]
            have hrec := followChainAux_records_le opened fuel (cacheAddress e.next_address)
            split_ifs <;> simp <;> omega

theorem followChainAux_cap (opened : List (String × DataFileModel))
    (a : CacheAddressRec) (ha : a.value ≠ 0) :
    followChainAux opened 0 a = ⟨[], [⟨.error, maxChainMsg⟩], none⟩ := by
  rw [followChainAux, if_neg ha]

theorem followChainAux_self_loop (opened : List (String × DataFileModel))
    (v : Nat) (f : DataFileModel) (off : Nat) (e : CacheEntryData) (hv : v ≠ 0)
    (hf : lookupOpened opened (cacheAddress v).filename = some f)
    (ho : (cacheAddress v).block_offset = some off)
    (he : lookupEntry f off = some e) (hn : e.next_address = v)
    (hk : (readCacheEntryKey e.key).2 = false) :
    ∀ fuel : Nat, followChainAux opened fuel (cacheAddress v) =
      ⟨List.replicate fuel (e.creation_time, (readCacheEntryKey e.key).1),
        [⟨.error, maxChainMsg⟩], none⟩
  | 0 => by
    rw [followChainAux_cap opened (cacheAddress v) (by rwa [cacheAddress_value])]
    rfl
  | fuel + 1 => by
    have hall := readCacheEntryKey_snd_false hk
    rw [followChainAux]
    rw [cacheAddress_value, if_neg hv]
    simp [hf, ho, he, hall, hk, hn,
      followChainAux_self_loop opened v f off e hv hf ho he hn hk fuel,
      List.replicate_succ]

/-- C2 (amended): the chain-following loop of `ParseDirectory` performs at
most 64 hops per starting slot: with the 64-hop budget the emitted record
list never exceeds 64 entries; when the per-chain counter reaches 64 while
the address is still live, the chain is abandoned with a logged ERROR
message (`logging.error`, not a warning); and on a self-referential entry
the traversal terminates after exactly 64 emitted records with the cap
error logged and no exception. -/
theorem followChain_hop_cap :
    (∀ (opened : List (String × DataFileModel)) (a : CacheAddressRec),
      (followChainAux opened 64 a).records.length ≤ 64) ∧
    (∀ (opened : List (String × DataFileModel)) (a : CacheAddressRec),
      a.value ≠ 0 →
      followChainAux opened 0 a = ⟨[], [⟨.error, maxChainMsg⟩], none⟩) ∧
    (∀ (opened : List (String × DataFileModel)) (v : Nat) (f : DataFileModel)
        (off : Nat) (e : CacheEntryData),
      v ≠ 0 → lookupOpened opened (cacheAddress v).filename = some f →
      (cacheAddress v).block_offset = some off → lookupEntry f off = some e →
      e.next_address = v → (readCacheEntryKey e.key).2 = false →
      followChainAux opened 64 (cacheAddress v) =
        ⟨List.replicate 64 (e.creation_time, (readCacheEntryKey e.key).1),
          [⟨.error, maxChainMsg⟩], none⟩) :=
  ⟨fun opened a => followChainAux_records_le opened 64 a,
    fun opened a ha => followChainAux_cap opened a ha,
    fun opened v f off e hv hf ho he hn hk =>
      followChainAux_self_loop opened v f off e hv hf ho he hn hk 64⟩

/-- A data block file holding a single entry at offset 8192 whose `next`
address points back to the entry's own cache address 0xa0000000. -/
def entrySelf : CacheEntryData := ⟨0, 0xa0000000, 0, 123, [65]⟩

/-- The opened-files dict containing only that self-referential file. -/
def openedSelf : List (String × DataFileModel) := [("data_0", [(8192, entrySelf)])]

/-- C2 counterexample to the claim as stated: on a self-referential chain
the cap is reached after 64 emitted records, but the abandonment is
logged by `logging.error` - the single log line carries severity `error`,
which is not the claimed warning severity. -/
theorem followChain_cap_logs_error_not_warning :
    (followChainAux openedSelf 64 (cacheAddress 0xa0000000)).records.length = 64 ∧
    (followChainAux openedSelf 64 (cacheAddress 0xa0000000)).logs =
      [⟨.error, maxChainMsg⟩] ∧
    LogSeverity.error ≠ LogSeverity.warning := by
  refine ⟨by decide, by decide, by decide⟩

/-- Witness for C2 instantiating all three parts at concrete inputs. -/
theorem followChain_hop_cap_witness :
    (followChainAux [] 64 (cacheAddress 0xa0000000)).records.length ≤ 64 ∧
    followChainAux [] 0 (cacheAddress 0xa0000000) =
      ⟨[], [⟨.error, maxChainMsg⟩], none⟩ ∧
    followChainAux openedSelf 64 (cacheAddress 0xa0000000) =
      ⟨List.replicate 64 (entrySelf.creation_time,
          (readCacheEntryKey entrySelf.key).1),
        [⟨.error, maxChainMsg⟩], none⟩ :=
  ⟨followChain_hop_cap.1 [] (cacheAddress 0xa0000000),
    followChain_hop_cap.2.1 [] (cacheAddress 0xa0000000) (by decide),
    followChain_hop_cap.2.2 openedSelf 0xa0000000 [(8192, entrySelf)] 8192
      entrySelf (by decide) (by decide) (by decide) (by decide) (by decide)
      (by decide)⟩

/-! ## Opening pass lemmas -/

theorem openPassAux_opened_sub (d : Directory) :
    ∀ (vs : List Nat) (opened : List (String × DataFileModel)) (ha : Bool)
      (logs : List LogMsg) (name : String),
      name ∈ (openPassAux d opened ha logs vs).opened.map Prod.fst →
      name ∈ opened.map Prod.fst ∨ ∃ v ∈ vs, (cacheAddress v).filename = some name
  | [], _, _, _, _ => fun h => Or.inl h
  | v :: rest, opened, ha, logs, name => by
    intro h
    cases hf : (cacheAddress v).filename with
    | none =>
      simp only [openPassAux, hf] at h
      exact Or.inl h
    | some n =>
      simp only [openPassAux, hf] at h
      by_cases hmem : (opened.find? fun p => p.1 == n).isSome
      · rw [if_pos hmem] at h
        rcases openPassAux_opened_sub d rest opened ha logs name h with h' | ⟨w, hw, hws⟩
        · exact Or.inl h'
        · exact Or.inr ⟨w, List.mem_cons_of_mem v hw, hws⟩
      · rw [if_neg hmem] at h
        cases hgf : d.files.find? fun p => p.1 == n with
        | none =>
          simp only [hgf] at h
          rcases openPassAux_opened_sub d rest opened false
              (logs ++ [⟨.error, missingFileMsg d.path n⟩]) name h with h' | ⟨w, hw, hws⟩
          · exact Or.inl h'
          · exact Or.inr ⟨w, List.mem_cons_of_mem v hw, hws⟩
        | some pf =>
          simp only [hgf] at h
          rcases openPassAux_opened_sub d rest (opened ++ [(n, pf.2)]) ha logs name h
            with h' | ⟨w, hw, hws⟩
          · rw [List.map_append] at h'
            rcases List.mem_append.mp h' with h'' | h''
            · exact Or.inl h''
            · simp at h''
              exact Or.inr ⟨v, List.mem_cons_self v rest, by rw [hf, h'']⟩
          · exact Or.inr ⟨w, List.mem_cons_of_mem v hw, hws⟩

theorem openPassAux_opened_from_files (d : Directory) :
    ∀ (vs : List Nat) (opened : List (String × DataFileModel)) (ha : Bool)
      (logs : List LogMsg),
      (∀ p ∈ opened, (d.files.find? fun q => q.1 == p.1).isSome) →
      ∀ p ∈ (openPassAux d opened ha logs vs).opened,
        (d.files.find? fun q => q.1 == p.1).isSome
  | [], _, _, _ => fun hinv p hp => hinv p hp
  | v :: rest, opened, ha, logs => by
    intro hinv p hp
    cases hf : (cacheAddress v).filename with
    | none =>
      simp only [openPassAux, hf] at hp
      exact hinv p hp
    | some n =>
      simp only [openPassAux, hf] at hp
      by_cases hmem : (opened.find? fun q => q.1 == n).isSome
      · rw [if_pos hmem] at hp
        exact openPassAux_opened_from_files d rest opened ha logs hinv p hp
      · rw [if_neg hmem] at hp
        cases hgf : d.files.find? fun q => q.1 == n with
        | none =>
          simp only [hgf] at hp
          exact openPassAux_opened_from_files d rest opened false _ hinv p hp
        | some pf =>
          simp only [hgf] at hp
          refine openPassAux_opened_from_files d rest (opened ++ [(n, pf.2)]) ha logs
            ?_ p hp
          intro q hq
          rcases List.mem_append.mp hq with hq' | hq'
          · exact hinv q hq'
          · simp only [List.mem_singleton] at hq'
            rw [hq']
            simp [hgf]

/-- C10: the opening pass of `ParseDirectory` opens only filenames that
some index-table address references and that exist among the directory's
files (so the opened dict never gains a file the table does not name);
the chain traversal consults only that dict, and a live chain address
whose filename is not among the opened files ends its chain with a single
logged warning, no emitted record and no raised error - the file is never
opened. -/
theorem parseDirectory_opens_only_referenced :
    (∀ (d : Directory) (name : String),
      name ∈ (openPassAux d [] true [] d.index_values).opened.map Prod.fst →
      (∃ v ∈ d.index_values, (cacheAddress v).filename = some name) ∧
        (d.files.find? fun q => q.1 == name).isSome) ∧
    (∀ (opened : List (String × DataFileModel)) (fuel : Nat) (a : CacheAddressRec),
      a.value ≠ 0 → lookupOpened opened a.filename = none →
      followChainAux opened (fuel + 1) a =
        ⟨[], [⟨.warning, missingFilenameMsg a.value⟩], none⟩) := by
  constructor
  · intro d name h
    constructor
    · rcases openPassAux_opened_sub d d.index_values [] true [] name h with h' | h'
      · simp at h'
      · exact h'
    · rcases List.mem_map.mp h with ⟨p, hp, hpn⟩
      have hs := openPassAux_opened_from_files d d.index_values [] true []
        (by simp) p hp
      rwa [hpn] at hs
  · intro opened fuel a ha hl
    rw [followChainAux, if_neg ha]
    simp [hl]

/-- A directory whose only table slot references `data_0`; `data_9` also
exists on disk but is never referenced. -/
def dirRef : Directory := ⟨"cache", [0xa0000000], [("data_0", []), ("data_9", [])]⟩

/-- Witness for C10: in `dirRef` the opened name `data_0` is referenced by
the table and exists, and a chain starting at the unopened `data_1`
address stops with the missing-filename warning. -/
theorem parseDirectory_opens_only_referenced_witness :
    ((∃ v ∈ dirRef.index_values, (cacheAddress v).filename = some "data_0") ∧
      (dirRef.files.find? fun q => q.1 == "data_0").isSome) ∧
    followChainAux [] 1 (cacheAddress 0xa0010000) =
      ⟨[], [⟨.warning, missingFilenameMsg (cacheAddress 0xa0010000).value⟩], none⟩ :=
  ⟨parseDirectory_opens_only_referenced.1 dirRef "data_0" (by decide),
    parseDirectory_opens_only_referenced.2 [] 0 (cacheAddress 0xa0010000)
      (by decide) (by decide)⟩

end ChromeCache
